import Mathlib

/-!
Verification development for the go-dotenv configuration registry
(`dotenv.go`): a prioritized `.env` registry resolving keys across the
process environment, a per-file in-memory cache, and an on-disk
`key=value` file.

Embedding conventions:
* Mutable process state (environment, the package-level `cachedConfig`
  cache, the filesystem) is a record `St` threaded through operations.
* Go `map` values are association lists; insertion replaces in place.
* Go `interface{}` values are `Value` (a string, or the untyped `nil`).
* Go strings are Lean `String`s; the ASCII-relevant string helpers
  (`ToUpper`, `HasPrefix`) are re-implemented over `List Char` so that
  they reduce inside the kernel.
* Mutex operations are erased from the functional definitions and
  modelled separately as explicit acquisition traces over a
  reader/writer lock state machine (`LockOp`, `runLockOps`).
-/

/-- Association-list lookup, modelling Go map indexing `m[k]` with its
presence flag. -/
def lookupA {α β : Type} [DecidableEq α] : List (α × β) → α → Option β
  | [], _ => none
  | (k', v) :: rest, k => if k' = k then some v else lookupA rest k

/-- Association-list update, modelling Go map assignment `m[k] = v`. -/
def updateA {α β : Type} [DecidableEq α] : List (α × β) → α → β → List (α × β)
  | [], k, v => [(k, v)]
  | (k', v') :: rest, k, v =>
      if k' = k then (k, v) :: rest else (k', v') :: updateA rest k v

/-- Association-list deletion, modelling Go `delete(m, k)`. -/
def eraseA {α β : Type} [DecidableEq α] : List (α × β) → α → List (α × β)
  | [], _ => []
  | (k', v') :: rest, k =>
      if k' = k then eraseA rest k else (k', v') :: eraseA rest k

/-- Character-list version of Go `strings.HasPrefix(s, p)` (does `s`
start with `p`). -/
def listStartsWith : List Char → List Char → Bool
  | _, [] => true
  | [], _ :: _ => false
  | a :: as, b :: bs => a = b && listStartsWith as bs

/-- Go `strings.HasPrefix(s, p)`: `s` starts with `p`. -/
def strHasPfx (s p : String) : Bool :=
  listStartsWith s.data p.data

/-- Go `strings.ToUpper` restricted to ASCII (all keys in play are
ASCII), implemented by mapping `Char.toUpper` over the characters. -/
def toUpperStr (s : String) : String :=
  String.mk (s.data.map Char.toUpper)

/-- A Go `interface{}` value as stored in the cache: either a string
(every value parsed from a file, and string values passed to `Set`) or
the untyped `nil` interface. -/
inductive Value : Type
  | vStr (s : String)
  | vNil
deriving DecidableEq, Repr

/-- Go `cast.ToString` on the values we model: identity on strings,
empty string for `nil`. -/
def castToString : Value → String
  | Value.vStr s => s
  | Value.vNil => ""

/-- The error values the modelled operations can surface:
`os.ErrNotExist`, the io error of a failed read of an existing file
(spec §4.1), and the wrapped write failure from `writeConfig`. -/
inductive GoErr : Type
  | errNotExist
  | errReadFailed
  | errWriteFailed
deriving DecidableEq, Repr

/-- A filesystem entry: a regular file with its raw text content, a
regular file that stats fine but whose read fails (the parse/io
read-failure path of spec §4.1, e.g. a permission error), or a
directory. -/
inductive FsEntry : Type
  | file (content : String)
  | unreadableFile
  | dir
deriving DecidableEq, Repr

/-- The mutable process state threaded through the operations: the
process environment (`os.LookupEnv` / `os.Getenv`), the package-level
`cachedConfig` map (file path to key/value mapping), the filesystem
(`os.Stat` / reads / writes), and the set of paths on which a write
fails. -/
structure St : Type where
  env : List (String × String)
  cache : List (String × List (String × Value))
  fs : List (String × FsEntry)
  unwritable : List String
deriving DecidableEq, Repr

/-- Default config file name (`DefaultConfigFile = ".env"`). -/
def DefaultConfigFile : String := ".env"

/-- Default key/value separator (`DefaultSeparator = "="`). -/
def DefaultSeparator : String := "="

/-- The `DotEnv` registry struct: config file path, separator, key
prefix (field `prefix` in the source, renamed here), and the
empty-env-var policy flag. -/
structure DotEnv : Type where
  ConfigFile : String
  Separator : String
  pfx : String
  allowEmptyEnvVars : Bool
deriving DecidableEq, Repr

/-- `Init(file ...string)`: builds a registry whose config file is the
first argument when present and non-empty, else `DefaultConfigFile`.
The remaining fields take Go zero values. -/
def Init (file : List String) : DotEnv :=
  let configFile := match file with
    | f :: _ => f
    | [] => ""
  let configFile := if configFile = "" then DefaultConfigFile else configFile
  { ConfigFile := configFile, Separator := DefaultSeparator,
    pfx := "", allowEmptyEnvVars := false }

/-- `(*DotEnv).SetPrefix`: stores the uppercased argument followed by a
trailing underscore. -/
def DotEnv.SetPfx (e : DotEnv) (p : String) : DotEnv :=
  { e with pfx := toUpperStr p ++ "_" }

/-- `(*DotEnv).addPrefix`: exactly as in the source, the guard is
`!strings.HasPrefix(e.prefix, key)` - it tests whether the PREFIX
starts with the KEY. -/
def DotEnv.addPfx (e : DotEnv) (key : String) : String :=
  if e.pfx ≠ "" then
    if strHasPfx e.pfx key = false then e.pfx ++ key else key
  else key

/-- `(*DotEnv).AllowEmptyEnvVars`: updates the flag. -/
def DotEnv.AllowEmpty (e : DotEnv) (b : Bool) : DotEnv :=
  { e with allowEmptyEnvVars := b }

/-- `checkFileExists`: true when `os.Stat` succeeds and the path is not
a directory; a missing path reports false. An unreadable file stats
fine, so it reports true. -/
def checkFileExists (fs : List (String × FsEntry)) (filename : String) : Bool :=
  match lookupA fs filename with
  | none => false
  | some FsEntry.dir => false
  | some FsEntry.unreadableFile => true
  | some (FsEntry.file _) => true

/-- Split a character list into lines at newline characters. -/
def splitLines : List Char → List (List Char)
  | [] => [[]]
  | c :: rest =>
      if c = '\n' then [] :: splitLines rest
      else
        match splitLines rest with
        | [] => [[c]]
        | h :: t => (c :: h) :: t

/-- Trim surrounding whitespace from a character list. -/
def trimChars (l : List Char) : List Char :=
  ((l.dropWhile Char.isWhitespace).reverse.dropWhile Char.isWhitespace).reverse

/-- Strip one leading `export ` token from a key side, when present. -/
def stripExportTok (l : List Char) : List Char :=
  if listStartsWith l "export ".data then l.drop 7 else l

/-- Strip one level of matching surrounding single or double quotes
(character codes 39 and 34) from a value, when present. -/
def stripQuotes (l : List Char) : List Char :=
  match l with
  | [] => []
  | c :: rest =>
      if (c.toNat = 39 ∨ c.toNat = 34) ∧ rest ≠ [] ∧ rest.getLast? = some c then
        rest.dropLast
      else c :: rest

/-- Split a character list at the first occurrence of the separator
substring; `none` when the separator does not occur. -/
def splitOnFirstSub (sep : List Char) : List Char → Option (List Char × List Char)
  | [] => none
  | c :: rest =>
      if listStartsWith (c :: rest) sep then some ([], (c :: rest).drop sep.length)
      else
        match splitOnFirstSub sep rest with
        | some (a, b) => some (c :: a, b)
        | none => none

/-- Parse one line into a key/value pair: split at the first separator
occurrence, trim both sides, strip an optional `export ` token from the
key, strip matching quotes from the value; `none` when the separator is
absent (the line is skipped). -/
def parseLine (sep : String) (line : List Char) : Option (String × String) :=
  match splitOnFirstSub sep.data line with
  | none => none
  | some (k, v) =>
      some (String.mk (stripExportTok (trimChars k)),
            String.mk (stripQuotes (trimChars v)))

/-- Modelled from the spec: the File Store Reader's parser is not among
the provided source files. Per spec §4.1 it reads the file line by
line, skips blank and unparseable lines, splits each remaining line on
the first separator occurrence, trims whitespace and a leading
`export ` token on the key side, strips one level of matching quotes
from the value, and produces the resulting mapping (later lines
overwrite earlier ones, as for a Go map built in line order). -/
def parseConfig (content : String) (sep : String) : List (String × Value) :=
  ((splitLines content.data).filterMap fun line =>
      if trimChars line = [] then none else parseLine sep line).foldl
    (fun m p => updateA m p.1 (Value.vStr p.2)) []

/-- Modelled from the spec: `readAndParseConfig` is not among the
provided source files. Per spec §4.1 it parses the file at the given
path into a key/value mapping, all values strings; reading a path that
is missing or a directory fails with not-found, and reading an existing
file can also fail with a parse/io error (modelled by
`FsEntry.unreadableFile`) - the path through which `GetFromFile`
returns a nil value with an error. -/
def readAndParseConfig (fs : List (String × FsEntry)) (filePath sep : String) :
    Except GoErr (List (String × Value)) :=
  match lookupA fs filePath with
  | some (FsEntry.file content) => Except.ok (parseConfig content sep)
  | some FsEntry.unreadableFile => Except.error GoErr.errReadFailed
  | _ => Except.error GoErr.errNotExist

/-- The `(value, ok, err)` result triple of `GetFromFile` and
`getConfigValueWithKey`. -/
structure FileLookup : Type where
  value : Value
  found : Bool
  err : Option GoErr
deriving DecidableEq, Repr

/-- `GetFromFile(filePath, key, separator)`: not-found when the file is
missing or a directory; otherwise serves the cached mapping for the
path, populating it from the parsed file on a cache miss; returns the
value for `key` in that mapping with a presence flag. The mutex
acquisitions (`mu.Lock` / deferred `mu.Unlock`) are erased here and
tracked in `getFromFileLockTrace`. -/
def GetFromFile (st : St) (filePath key separator : String) : FileLookup × St :=
  if checkFileExists st.fs filePath = false then
    (⟨Value.vStr "", false, some GoErr.errNotExist⟩, st)
  else
    match lookupA st.cache filePath with
    | some configCache =>
        match lookupA configCache key with
        | some cachedEnv => (⟨cachedEnv, true, none⟩, st)
        | none => (⟨Value.vStr "", false, none⟩, st)
    | none =>
        match readAndParseConfig st.fs filePath separator with
        | Except.error err => (⟨Value.vNil, false, some err⟩, st)
        | Except.ok c =>
            let st1 := { st with cache := updateA st.cache filePath c }
            match lookupA c key with
            | some cachedEnv => (⟨cachedEnv, true, none⟩, st1)
            | none => (⟨Value.vStr "", false, none⟩, st1)

/-- `getConfigValueWithKey`: first `os.Getenv(key)`; when that is the
empty string, fall back to `GetFromFile`; a non-empty environment value
is returned with `exists=false, err=nil` (the named results keep their
zero values). -/
def getConfigValueWithKey (st : St) (configFile key separator : String) :
    FileLookup × St :=
  let env := (lookupA st.env key).getD ""
  if env = "" then GetFromFile st configFile key separator
  else (⟨Value.vStr env, false, none⟩, st)

/-- `(*DotEnv).Get`: empty keys resolve to `""` at once. Otherwise the
key is prefixed (`addPrefix`) then uppercased; a set-but-empty
environment variable with `allowEmptyEnvVars` disabled is returned
immediately; otherwise the cache/file lookup (`GetFromFile`) is
consulted and its value returned when found; otherwise
`getConfigValueWithKey` (environment first, then file) decides. -/
def DotEnv.Get (e : DotEnv) (st : St) (key : String) : Value × St :=
  if key = "" then (Value.vStr "", st)
  else
    let k := toUpperStr (e.addPfx key)
    let emptyEnvShort : Bool :=
      match lookupA st.env k with
      | some val => val = "" && !e.allowEmptyEnvVars
      | none => false
    if emptyEnvShort then (Value.vStr "", st)
    else
      let r1 := GetFromFile st e.ConfigFile k e.Separator
      if r1.1.err = none ∧ r1.1.found = true then (r1.1.value, r1.2)
      else
        let r2 := getConfigValueWithKey r1.2 e.ConfigFile k e.Separator
        (r2.1.value, r2.2)

/-- `(*DotEnv).IsSet`: resolves the key with `Get` and reports whether
the resulting interface value is non-nil. -/
def DotEnv.IsSet (e : DotEnv) (st : St) (key : String) : Bool × St :=
  let r := DotEnv.Get e st key
  (if r.1 = Value.vNil then false else true, r.2)

/-- `(*DotEnv).LookUp`: passes the key verbatim (no prefix, no
uppercasing) to `GetFromFile` and returns the value with its presence
flag, dropping the error. -/
def DotEnv.LookUp (e : DotEnv) (st : St) (key : String) : (Value × Bool) × St :=
  let r := GetFromFile st e.ConfigFile key e.Separator
  ((r.1.value, r.1.found), r.2)

/-- `(*DotEnv).Set`: prefixes and uppercases the key, then assigns into
`cachedConfig[e.ConfigFile]`. When no entry exists for the file path
the inner map is Go's nil map and the assignment panics: that outcome
is `none`. The mutex acquisitions are tracked in `setLockTrace`. -/
def DotEnv.Set (e : DotEnv) (st : St) (key : String) (value : Value) : Option St :=
  let k := toUpperStr (e.addPfx key)
  match lookupA st.cache e.ConfigFile with
  | none => none
  | some m =>
      some { st with cache := updateA st.cache e.ConfigFile (updateA m k value) }

/-- `InvalidateEnvCacheForFile`: deletes the cache entry for the path.
Its mutex acquisitions appear inside `saveLockTrace`. -/
def InvalidateEnvCacheForFile (st : St) (filePath : String) : St :=
  { st with cache := eraseA st.cache filePath }

/-- Modelled from the spec: `WriteFile` is not among the provided
source files. Per spec §4.4 it overwrites the file with the serialized
content and fails with an io error when the write fails; paths listed
in `unwritable` model a failing write. -/
def WriteFile (st : St) (path data : String) : Except GoErr St :=
  if path ∈ st.unwritable then Except.error GoErr.errWriteFailed
  else Except.ok { st with fs := updateA st.fs path (FsEntry.file data) }

/-- `writeConfig`: attempts the file write (the `os.MkdirAll` call's
error is discarded in the source and its directory side effect is not
observable through any modelled operation, so it is elided), wrapping a
write failure; the deferred `InvalidateEnvCacheForFile` runs on return
in either case. -/
def writeConfig (st : St) (cfgFile data : String) : Option GoErr × St :=
  let r : Option GoErr × St :=
    match WriteFile st cfgFile data with
    | Except.error _ => (some GoErr.errWriteFailed, st)
    | Except.ok st2 => (none, st2)
  (r.1, InvalidateEnvCacheForFile r.2 cfgFile)

/-- Serialization loop of `(*DotEnv).Save`: each cached pair becomes
`key separator value newline`; ranging over a missing (nil) map
produces nothing. -/
def serializeEntry (entry : Option (List (String × Value))) (sep : String) : String :=
  match entry with
  | none => ""
  | some m => m.foldl (fun acc p => acc ++ p.1 ++ sep ++ castToString p.2 ++ "\n") ""

/-- `(*DotEnv).Save` with the mutex erased: serializes the cache entry
for the registry's file and hands it to `writeConfig`. The source's
lock behavior (`mu.RLock` held across `writeConfig`, whose deferred
invalidate takes `mu.Lock`) is tracked in `saveLockTrace`. -/
def DotEnv.Save (e : DotEnv) (st : St) : Option GoErr × St :=
  let cfgData := serializeEntry (lookupA st.cache e.ConfigFile) e.Separator
  writeConfig st e.ConfigFile cfgData

/-- `(*DotEnv).Write`: `Set` followed by `Save`; `none` when the `Set`
panics. -/
def DotEnv.Write (e : DotEnv) (st : St) (key : String) (value : Value) :
    Option (Option GoErr × St) :=
  match DotEnv.Set e st key value with
  | none => none
  | some st1 => some (DotEnv.Save e st1)

/-- `(*DotEnv).LoadConfig`: not-found when `checkFileExists` fails
(missing path or directory); otherwise parses the file and replaces the
cache entry for the path wholesale. -/
def DotEnv.LoadConfig (e : DotEnv) (st : St) : Option GoErr × St :=
  if checkFileExists st.fs e.ConfigFile = false then (some GoErr.errNotExist, st)
  else
    match readAndParseConfig st.fs e.ConfigFile e.Separator with
    | Except.error err => (some err, st)
    | Except.ok c => (none, { st with cache := updateA st.cache e.ConfigFile c })

/-- Spec-side helper for stating claims: the value the cache currently
associates to `key` under `filePath`, when both levels are present. -/
def cacheLookup2 (st : St) (filePath key : String) : Option Value :=
  match lookupA st.cache filePath with
  | some m => lookupA m key
  | none => none

/-- Acquisition and release operations on the package-level
`sync.RWMutex mu`. -/
inductive LockOp : Type
  | rlock
  | runlock
  | wlock
  | wunlock
deriving DecidableEq, Repr

/-- State of a (non-reentrant) reader/writer lock: the number of
readers currently holding it and whether a writer holds it. -/
structure LockState : Type where
  readers : Nat
  writer : Bool
deriving DecidableEq, Repr

/-- The unlocked lock. -/
def lockInit0 : LockState := ⟨0, false⟩

/-- One lock operation on a `sync.RWMutex`, executed by the only
runnable thread: an acquisition whose wait condition is not met blocks
with nobody left to release, so the run is stuck (`none`). `RLock`
needs no writer; `Lock` needs no writer and no readers. -/
def lockStep (s : LockState) : LockOp → Option LockState
  | LockOp.rlock => if s.writer then none else some { s with readers := s.readers + 1 }
  | LockOp.runlock =>
      if s.readers = 0 then none else some { s with readers := s.readers - 1 }
  | LockOp.wlock =>
      if s.writer ∨ s.readers ≠ 0 then none else some { s with writer := true }
  | LockOp.wunlock => if s.writer then some { s with writer := false } else none

/-- Run a sequence of lock operations; `none` as soon as one blocks. -/
def runLockOps (s : LockState) : List LockOp → Option LockState
  | [] => some s
  | op :: rest =>
      match lockStep s op with
      | none => none
      | some s' => runLockOps s' rest

/-- The mutex acquisitions a call to `(*DotEnv).Save` performs, in
source order: `mu.RLock()` at the top of `Save`; then inside
`writeConfig`'s deferred `InvalidateEnvCacheForFile`, `mu.Lock()` and
`mu.Unlock()`; finally `Save`'s own deferred `mu.RUnlock()`. -/
def DotEnv.saveLockTrace : List LockOp :=
  [LockOp.rlock, LockOp.wlock, LockOp.wunlock, LockOp.runlock]

/-- The prefix of `saveLockTrace` that must complete before the
`delete(cachedConfig, filePath)` statement inside
`InvalidateEnvCacheForFile` can execute: `Save`'s `mu.RLock()` and the
invalidate's `mu.Lock()`. -/
def DotEnv.saveAcqBeforeDelete : List LockOp :=
  [LockOp.rlock, LockOp.wlock]

/-- The mutex acquisitions of one `GetFromFile` call (and hence of the
cache access inside every `Get` and `LookUp`): the source takes the
EXCLUSIVE lock `mu.Lock()` with a deferred `mu.Unlock()`, even on a
pure cache hit. -/
def getFromFileLockTrace : List LockOp :=
  [LockOp.wlock, LockOp.wunlock]

/-- The mutex acquisitions of one `(*DotEnv).Set` call. -/
def DotEnv.setLockTrace : List LockOp :=
  [LockOp.wlock, LockOp.wunlock]

/-- Schedule in which two `GetFromFile` critical sections overlap: both
acquisitions happen before either release. With the exclusive lock the
source takes, this is the schedule that would let two `Get`s run
concurrently. -/
def twoOverlappingGets : List LockOp :=
  [LockOp.wlock, LockOp.wlock, LockOp.wunlock, LockOp.wunlock]

/-- The same overlapping schedule under the spec's intended discipline
(§5: read operations take the shared lock). -/
def twoOverlappingReadLocked : List LockOp :=
  [LockOp.rlock, LockOp.rlock, LockOp.runlock, LockOp.runlock]

example : checkFileExists [(".env", FsEntry.file "A=1\n")] ".env" = true := by decide
example : checkFileExists [(".env", FsEntry.dir)] ".env" = false := by decide
example : toUpperStr "pro" = "PRO" := by decide
example : strHasPfx "PRO_FOO" "PRO_" = true := by decide
example : strHasPfx "PRO_" "PRO_FOO" = false := by decide
example : parseConfig "export OPTION_B=foo\n" "=" = [("OPTION_B", Value.vStr "foo")] := by decide
example : parseConfig "A=1\nB=\"my string\"\n\nbad\n" "=" =
    [("A", Value.vStr "1"), ("B", Value.vStr "my string")] := by decide

/-- A plain registry on the default file, default separator, no key
prefix, empty env vars not allowed (the `Init` result). -/
def plainEnvReg : DotEnv :=
  Init []

example : plainEnvReg =
    { ConfigFile := ".env", Separator := "=", pfx := "", allowEmptyEnvVars := false } := by
  decide

/-- State where the transformed key `K` is set in the environment to a
non-empty value and the cache for `.env` maps `K` to a file value. -/
def stEnvAndCache : St :=
  { env := [("K", "envVal")],
    cache := [(".env", [("K", Value.vStr "fileVal")])],
    fs := [(".env", FsEntry.file "K=fileVal\n")],
    unwritable := [] }

/-- State where `K` is set in the environment but the cached mapping
for `.env` is empty. -/
def stEnvOnly : St :=
  { env := [("K", "envVal")],
    cache := [(".env", [])],
    fs := [(".env", FsEntry.file "")],
    unwritable := [] }

/-- State where `K` is set in the environment to the empty string and
the cache maps `K` to a file value. -/
def stEmptyEnv : St :=
  { env := [("K", "")],
    cache := [(".env", [("K", Value.vStr "fileVal")])],
    fs := [(".env", FsEntry.file "K=fileVal\n")],
    unwritable := [] }

/-- State whose cached mapping for `.env` holds only the uppercase key
`FOO`. -/
def stFooCached : St :=
  { env := [],
    cache := [(".env", [("FOO", Value.vStr "bar")])],
    fs := [(".env", FsEntry.file "FOO=bar\n")],
    unwritable := [] }

example : (DotEnv.Get plainEnvReg stEnvAndCache "k").1 = Value.vStr "fileVal" := by decide
example : (DotEnv.Get plainEnvReg stEnvOnly "k").1 = Value.vStr "envVal" := by decide
example : (DotEnv.Get plainEnvReg stEmptyEnv "k").1 = Value.vStr "" := by decide
example : (DotEnv.LookUp plainEnvReg stFooCached "foo").1 = (Value.vStr "", false) := by
  decide

example : runLockOps lockInit0 DotEnv.saveLockTrace = none := by decide
example : runLockOps lockInit0 twoOverlappingGets = none := by decide
example : runLockOps lockInit0 twoOverlappingReadLocked = some lockInit0 := by decide

theorem lookupA_updateA_self {α β : Type} [DecidableEq α]
    (m : List (α × β)) (k : α) (v : β) :
    lookupA (updateA m k v) k = some v := by
  induction m with
  | nil => simp [updateA, lookupA]
  | cons p rest ih =>
      obtain ⟨k', v'⟩ := p
      by_cases h : k' = k
      · simp [updateA, h, lookupA]
      · simp [updateA, h, lookupA, ih]

theorem lookupA_updateA_ne {α β : Type} [DecidableEq α]
    (m : List (α × β)) (k k' : α) (v : β) (h : k' ≠ k) :
    lookupA (updateA m k v) k' = lookupA m k' := by
  induction m with
  | nil => simp [updateA, lookupA, Ne.symm h]
  | cons p rest ih =>
      obtain ⟨k1, v1⟩ := p
      by_cases h1 : k1 = k
      · subst h1
        simp [updateA, lookupA, Ne.symm h]
      · by_cases h2 : k1 = k'
        · subst h2
          simp [updateA, h1, lookupA]
        · simp [updateA, h1, lookupA, h2, ih]

theorem toUpperStr_eq_empty_iff (s : String) : toUpperStr s = "" ↔ s = "" := by
  cases s with
  | mk data =>
      cases data with
      | nil => simp [toUpperStr]
      | cons c cs => simp [toUpperStr, String.ext_iff]

theorem checkFileExists_true_cases (fs : List (String × FsEntry)) (fp : String)
    (h : ¬ checkFileExists fs fp = false) :
    (∃ content, lookupA fs fp = some (FsEntry.file content)) ∨
    lookupA fs fp = some FsEntry.unreadableFile := by
  unfold checkFileExists at h
  cases hfs : lookupA fs fp with
  | none => rw [hfs] at h; simp at h
  | some entry =>
      cases entry with
      | dir => rw [hfs] at h; simp at h
      | unreadableFile => exact Or.inr rfl
      | file c => exact Or.inl ⟨c, rfl⟩

theorem foldl_updateA_vStr (l : List (String × String)) (acc : List (String × Value))
    (key : String) (hacc : lookupA acc key ≠ some Value.vNil) :
    lookupA (l.foldl (fun m p => updateA m p.1 (Value.vStr p.2)) acc) key ≠
      some Value.vNil := by
  induction l generalizing acc with
  | nil => exact hacc
  | cons p rest ih =>
      refine ih (updateA acc p.1 (Value.vStr p.2)) ?_
      by_cases hp : p.1 = key
      · rw [hp, lookupA_updateA_self]; simp
      · rw [lookupA_updateA_ne _ _ _ _ (fun hh => hp hh.symm)]
        exact hacc

theorem parseConfig_not_vNil (content sep key : String) :
    lookupA (parseConfig content sep) key ≠ some Value.vNil := by
  unfold parseConfig
  exact foldl_updateA_vStr _ [] key (by simp [lookupA])

theorem getFromFile_eval_noFile (st : St) (fp key sep : String)
    (hex : checkFileExists st.fs fp = false) :
    GetFromFile st fp key sep =
      (⟨Value.vStr "", false, some GoErr.errNotExist⟩, st) := by
  simp [GetFromFile, hex]

theorem getFromFile_eval_hit (st : St) (fp key sep : String)
    (m : List (String × Value)) (v : Value)
    (hex : checkFileExists st.fs fp = true)
    (hmc : lookupA st.cache fp = some m) (hk : lookupA m key = some v) :
    GetFromFile st fp key sep = (⟨v, true, none⟩, st) := by
  simp [GetFromFile, hex, hmc, hk]

theorem getFromFile_eval_missKey (st : St) (fp key sep : String)
    (m : List (String × Value))
    (hex : checkFileExists st.fs fp = true)
    (hmc : lookupA st.cache fp = some m) (hk : lookupA m key = none) :
    GetFromFile st fp key sep = (⟨Value.vStr "", false, none⟩, st) := by
  simp [GetFromFile, hex, hmc, hk]

theorem getFromFile_eval_popHit (st : St) (fp key sep content : String) (v : Value)
    (hfs : lookupA st.fs fp = some (FsEntry.file content))
    (hmc : lookupA st.cache fp = none)
    (hk : lookupA (parseConfig content sep) key = some v) :
    GetFromFile st fp key sep =
      (⟨v, true, none⟩,
        { st with cache := updateA st.cache fp (parseConfig content sep) }) := by
  have hex : checkFileExists st.fs fp = true := by simp [checkFileExists, hfs]
  simp [GetFromFile, hex, hmc, readAndParseConfig, hfs, hk]

theorem getFromFile_eval_popMiss (st : St) (fp key sep content : String)
    (hfs : lookupA st.fs fp = some (FsEntry.file content))
    (hmc : lookupA st.cache fp = none)
    (hk : lookupA (parseConfig content sep) key = none) :
    GetFromFile st fp key sep =
      (⟨Value.vStr "", false, none⟩,
        { st with cache := updateA st.cache fp (parseConfig content sep) }) := by
  have hex : checkFileExists st.fs fp = true := by simp [checkFileExists, hfs]
  simp [GetFromFile, hex, hmc, readAndParseConfig, hfs, hk]

theorem getFromFile_eval_readErr (st : St) (fp key sep : String)
    (hfs : lookupA st.fs fp = some FsEntry.unreadableFile)
    (hmc : lookupA st.cache fp = none) :
    GetFromFile st fp key sep =
      (⟨Value.vNil, false, some GoErr.errReadFailed⟩, st) := by
  have hex : checkFileExists st.fs fp = true := by simp [checkFileExists, hfs]
  simp [GetFromFile, hex, hmc, readAndParseConfig, hfs]

/-- The condition under which the read-failure path of `GetFromFile`
(dotenv.go:401, returning a nil value) is reached: the path exists but
is unreadable and no cache entry shields it. -/
def readErrPath (st : St) (fp : String) : Prop :=
  lookupA st.fs fp = some FsEntry.unreadableFile ∧ lookupA st.cache fp = none

instance (st : St) (fp : String) : Decidable (readErrPath st fp) := by
  unfold readErrPath
  infer_instance

theorem getFromFile_value_vNil (st : St) (fp key sep : String)
    (h : (GetFromFile st fp key sep).1.value = Value.vNil) :
    cacheLookup2 st fp key = some Value.vNil ∨ readErrPath st fp := by
  by_cases hex : checkFileExists st.fs fp = false
  · rw [getFromFile_eval_noFile st fp key sep hex] at h
    simp at h
  · have hcases := checkFileExists_true_cases st.fs fp hex
    cases hmc : lookupA st.cache fp with
    | some m =>
        have hex' : checkFileExists st.fs fp = true := by
          rcases hcases with ⟨content, hfs⟩ | hfs <;> simp [checkFileExists, hfs]
        cases hk : lookupA m key with
        | some v =>
            rw [getFromFile_eval_hit st fp key sep m v hex' hmc hk] at h
            simp at h
            rw [h] at hk
            exact Or.inl (by simp [cacheLookup2, hmc, hk])
        | none =>
            rw [getFromFile_eval_missKey st fp key sep m hex' hmc hk] at h
            simp at h
    | none =>
        rcases hcases with ⟨content, hfs⟩ | hfs
        · cases hk : lookupA (parseConfig content sep) key with
          | some v =>
              rw [getFromFile_eval_popHit st fp key sep content v hfs hmc hk] at h
              simp at h
              rw [h] at hk
              exact absurd hk (parseConfig_not_vNil content sep key)
          | none =>
              rw [getFromFile_eval_popMiss st fp key sep content hfs hmc hk] at h
              simp at h
        · exact Or.inr ⟨hfs, hmc⟩

theorem getFromFile_state_after (st : St) (fp key sep : String) :
    (GetFromFile st fp key sep).2 = st ∨
    ∃ content, lookupA st.fs fp = some (FsEntry.file content) ∧
      (GetFromFile st fp key sep).2 =
        { st with cache := updateA st.cache fp (parseConfig content sep) } := by
  by_cases hex : checkFileExists st.fs fp = false
  · left
    rw [getFromFile_eval_noFile st fp key sep hex]
  · have hcases := checkFileExists_true_cases st.fs fp hex
    cases hmc : lookupA st.cache fp with
    | some m =>
        have hex' : checkFileExists st.fs fp = true := by
          rcases hcases with ⟨content, hfs⟩ | hfs <;> simp [checkFileExists, hfs]
        cases hk : lookupA m key with
        | some v =>
            left
            rw [getFromFile_eval_hit st fp key sep m v hex' hmc hk]
        | none =>
            left
            rw [getFromFile_eval_missKey st fp key sep m hex' hmc hk]
    | none =>
        rcases hcases with ⟨content, hfs⟩ | hfs
        · cases hk : lookupA (parseConfig content sep) key with
          | some v =>
              right
              exact ⟨content, hfs,
                by rw [getFromFile_eval_popHit st fp key sep content v hfs hmc hk]⟩
          | none =>
              right
              exact ⟨content, hfs,
                by rw [getFromFile_eval_popMiss st fp key sep content hfs hmc hk]⟩
        · left
          rw [getFromFile_eval_readErr st fp key sep hfs hmc]

theorem gcvwk_value_vNil (st : St) (cf key sep : String)
    (h : (getConfigValueWithKey st cf key sep).1.value = Value.vNil) :
    cacheLookup2 st cf key = some Value.vNil ∨ readErrPath st cf := by
  simp only [getConfigValueWithKey] at h
  by_cases hge : (lookupA st.env key).getD "" = ""
  · rw [if_pos hge] at h
    exact getFromFile_value_vNil st cf key sep h
  · rw [if_neg hge] at h
    simp at h

theorem get_value_vNil (e : DotEnv) (st : St) (k : String)
    (h : (DotEnv.Get e st k).1 = Value.vNil) :
    cacheLookup2 st e.ConfigFile (toUpperStr (e.addPfx k)) = some Value.vNil ∨
    readErrPath st e.ConfigFile := by
  simp only [DotEnv.Get] at h
  by_cases hk : k = ""
  · rw [if_pos hk] at h
    simp at h
  · rw [if_neg hk] at h
    by_cases hshort : (match lookupA st.env (toUpperStr (e.addPfx k)) with
        | some val => decide (val = "") && !e.allowEmptyEnvVars
        | none => false) = true
    · rw [if_pos hshort] at h
      simp at h
    · rw [if_neg hshort] at h
      by_cases hfound :
          (GetFromFile st e.ConfigFile (toUpperStr (e.addPfx k)) e.Separator).1.err = none ∧
          (GetFromFile st e.ConfigFile (toUpperStr (e.addPfx k)) e.Separator).1.found = true
      · rw [if_pos hfound] at h
        exact getFromFile_value_vNil st e.ConfigFile (toUpperStr (e.addPfx k)) e.Separator h
      · rw [if_neg hfound] at h
        have h2 := gcvwk_value_vNil
          (GetFromFile st e.ConfigFile (toUpperStr (e.addPfx k)) e.Separator).2
          e.ConfigFile (toUpperStr (e.addPfx k)) e.Separator h
        rcases getFromFile_state_after st e.ConfigFile (toUpperStr (e.addPfx k))
            e.Separator with hs | ⟨c, hfs, hs⟩
        · rwa [hs] at h2
        · rw [hs] at h2
          rcases h2 with h2 | h2
          · simp only [cacheLookup2, lookupA_updateA_self] at h2
            exact absurd h2 (parseConfig_not_vNil c e.Separator (toUpperStr (e.addPfx k)))
          · have hcache := h2.2
            simp only [lookupA_updateA_self] at hcache
            simp at hcache

/-- C2: for every non-empty key whose transformed name is set in the
environment with the empty string while `allowEmptyEnvVars` is false,
`Get` returns the empty string directly (state untouched); it does not
fall through to the cached or file value for that key. -/
theorem c2_empty_env_short_circuit (e : DotEnv) (st : St) (k : String)
    (hk : k ≠ "")
    (he : lookupA st.env (toUpperStr (e.addPfx k)) = some "")
    (ha : e.allowEmptyEnvVars = false) :
    DotEnv.Get e st k = (Value.vStr "", st) := by
  simp [DotEnv.Get, hk, he, ha]

/-- Witness for C2 at a concrete input: the transformed key `K` is set
to `""` in the environment and the cache holds a file value for it, yet
`Get` returns the empty string and leaves the state unchanged. -/
theorem c2_empty_env_short_circuit_witness :
    DotEnv.Get plainEnvReg stEmptyEnv "k" = (Value.vStr "", stEmptyEnv) :=
  c2_empty_env_short_circuit plainEnvReg stEmptyEnv "k" (by decide) (by decide) (by decide)

/-- C3: the claim says `addPrefix` leaves a key that already starts
with the configured prefix unchanged, and prepends otherwise. The
source tests `strings.HasPrefix(e.prefix, key)` with the arguments
reversed, so `PRO_FOO` (which starts with the prefix `PRO_`) is
prefixed AGAIN, while `PRO` (which does not start with `PRO_`) is left
alone because it is an initial segment of the prefix. -/
theorem c3_reversed_guard_eval :
    (plainEnvReg.SetPfx "pro").addPfx "PRO_FOO" = "PRO_PRO_FOO" ∧
    (plainEnvReg.SetPfx "pro").addPfx "PRO" = "PRO" ∧
    strHasPfx "PRO_FOO" (plainEnvReg.SetPfx "pro").pfx = true ∧
    strHasPfx "PRO" (plainEnvReg.SetPfx "pro").pfx = false := by decide

/-- C6: the claim says the cache entry has been removed after every
call to `Save`. But `Save` takes the read lock before serializing and
still holds it when `writeConfig`'s deferred
`InvalidateEnvCacheForFile` tries to take the write lock on the same
`RWMutex`: the lock acquisitions that must complete before the `delete`
statement can execute block forever, so the entry is never removed (and
`Save` never returns). -/
theorem c6_invalidate_never_reached :
    runLockOps lockInit0 DotEnv.saveAcqBeforeDelete = none := by decide

/-- C7: `LoadConfig` returns the not-found error both when the
configured path is absent and when it names a directory, and leaves the
whole state (in particular the cache) unchanged. -/
theorem c7_loadconfig_notfound (e : DotEnv) (st : St)
    (h : lookupA st.fs e.ConfigFile = none ∨
         lookupA st.fs e.ConfigFile = some FsEntry.dir) :
    DotEnv.LoadConfig e st = (some GoErr.errNotExist, st) := by
  have hc : checkFileExists st.fs e.ConfigFile = false := by
    rcases h with h | h <;> simp [checkFileExists, h]
  simp [DotEnv.LoadConfig, hc]

/-- State whose filesystem has a directory at `.env`. -/
def stDirAtEnv : St :=
  { env := [], cache := [], fs := [(".env", FsEntry.dir)], unwritable := [] }

/-- Witness for C7 at a concrete input: the configured path names a
directory. -/
theorem c7_loadconfig_notfound_witness :
    DotEnv.LoadConfig plainEnvReg stDirAtEnv = (some GoErr.errNotExist, stDirAtEnv) :=
  c7_loadconfig_notfound plainEnvReg stDirAtEnv (Or.inr (by decide))

/-- C8: when a cache entry for the registry's file path exists, `Set`
stores the value under the transformed (prefix-applied, uppercased) key
inside that entry and succeeds; when no entry exists, the Go assignment
into the nil inner map panics (modelled as `none`), so the entry is a
genuine precondition of `Set`. -/
theorem c8_set_requires_entry (e : DotEnv) (st : St) (k : String) (v : Value) :
    (∀ m, lookupA st.cache e.ConfigFile = some m →
      DotEnv.Set e st k v =
        some { st with cache :=
                updateA st.cache e.ConfigFile (updateA m (toUpperStr (e.addPfx k)) v) }) ∧
    (lookupA st.cache e.ConfigFile = none → DotEnv.Set e st k v = none) := by
  constructor
  · intro m hm
    simp [DotEnv.Set, hm]
  · intro hm
    simp [DotEnv.Set, hm]

/-- The state `stFooCached` after `Set` stores `v` under the
transformed key `K`. -/
def stFooCachedAfterSet : St :=
  { env := [],
    cache := [(".env", [("FOO", Value.vStr "bar"), ("K", Value.vStr "v")])],
    fs := [(".env", FsEntry.file "FOO=bar\n")],
    unwritable := [] }

/-- Witness for C8 at concrete inputs: with an entry present the store
happens under the transformed key; with the cache empty the call
panics. -/
theorem c8_set_requires_entry_witness :
    DotEnv.Set plainEnvReg stFooCached "k" (Value.vStr "v") = some stFooCachedAfterSet ∧
    DotEnv.Set plainEnvReg stDirAtEnv "k" (Value.vStr "v") = none :=
  ⟨(c8_set_requires_entry plainEnvReg stFooCached "k" (Value.vStr "v")).1
      [("FOO", Value.vStr "bar")] rfl,
   (c8_set_requires_entry plainEnvReg stDirAtEnv "k" (Value.vStr "v")).2 rfl⟩

/-- C9: the claim says reads run concurrently and every operation,
including a single-threaded `Save`, completes. In the source, `Get` and
`LookUp` take the EXCLUSIVE lock inside `GetFromFile`, so the schedule
in which two read critical sections overlap blocks; and `Save`'s own
acquisition sequence (read lock held across the deferred invalidate's
write lock) blocks single-threaded. Under the spec's intended
discipline (shared lock for reads) the overlapping-readers schedule
completes and restores the free lock. -/
theorem c9_lock_discipline :
    runLockOps lockInit0 twoOverlappingGets = none ∧
    runLockOps lockInit0 DotEnv.saveLockTrace = none ∧
    runLockOps lockInit0 twoOverlappingReadLocked = some lockInit0 := by decide

/-- C1 counterexample: the transformed key `K` is set in the
environment to the non-empty `envVal`, yet `Get` returns the cached
file value `fileVal`, not the environment value: the environment does
NOT take precedence over the cache. -/
theorem c1_counterexample :
    lookupA stEnvAndCache.env (toUpperStr (plainEnvReg.addPfx "k")) = some "envVal" ∧
    ("envVal" : String) ≠ "" ∧
    (DotEnv.Get plainEnvReg stEnvAndCache "k").1 = Value.vStr "fileVal" ∧
    Value.vStr "fileVal" ≠ Value.vStr "envVal" := by decide

/-- C1 amended: a non-empty environment value for the transformed key
is returned by `Get` only when that key is ABSENT from the cached
mapping for the registry's file; when the cached mapping contains the
key, `Get` returns the cached value (the cache/file source beats the
environment; only the empty-env-with-flag-disabled case short-circuits
ahead of it). -/
theorem c1_amended_cache_beats_env (e : DotEnv) (st : St) (k v : String)
    (m : List (String × Value))
    (hk : k ≠ "")
    (he : lookupA st.env (toUpperStr (e.addPfx k)) = some v)
    (hv : v ≠ "")
    (hf : checkFileExists st.fs e.ConfigFile = true)
    (hm : lookupA st.cache e.ConfigFile = some m) :
    (∀ w, lookupA m (toUpperStr (e.addPfx k)) = some w →
      DotEnv.Get e st k = (w, st)) ∧
    (lookupA m (toUpperStr (e.addPfx k)) = none →
      DotEnv.Get e st k = (Value.vStr v, st)) := by
  constructor
  · intro w hw
    have h1 := getFromFile_eval_hit st e.ConfigFile (toUpperStr (e.addPfx k))
      e.Separator m w hf hm hw
    simp [DotEnv.Get, hk, he, hv, h1]
  · intro hw
    have h1 := getFromFile_eval_missKey st e.ConfigFile (toUpperStr (e.addPfx k))
      e.Separator m hf hm hw
    simp [DotEnv.Get, hk, he, hv, h1, getConfigValueWithKey]

/-- Witness for C1 amended at a concrete input: with the cached mapping
empty, the non-empty environment value is returned. -/
theorem c1_amended_cache_beats_env_witness :
    DotEnv.Get plainEnvReg stEnvOnly "k" = (Value.vStr "envVal", stEnvOnly) :=
  (c1_amended_cache_beats_env plainEnvReg stEnvOnly "k" "envVal" []
    (by decide) (by decide) (by decide) (by decide) rfl).2 rfl

/-- C4 counterexample: `foo` and `FOO` are case variants of the same
key, yet `LookUp` (which passes the key verbatim to the cache/file
lookup, with no uppercasing) answers absent for `foo` and present for
`FOO`: `LookUp` is case-sensitive. -/
theorem c4_counterexample :
    toUpperStr "foo" = toUpperStr "FOO" ∧
    DotEnv.LookUp plainEnvReg stFooCached "foo" ≠
      DotEnv.LookUp plainEnvReg stFooCached "FOO" := by decide

/-- C4 amended: `Get` is case-insensitive when no prefix is configured
(keys are normalized to uppercase before every lookup): two keys equal
up to letter case resolve identically. `LookUp`, by contrast, performs
no normalization at all and is case-sensitive (see the
counterexample). -/
theorem c4_amended_get_insensitive (e : DotEnv) (st : St) (k1 k2 : String)
    (hp : e.pfx = "") (h : toUpperStr k1 = toUpperStr k2) :
    DotEnv.Get e st k1 = DotEnv.Get e st k2 := by
  have ha1 : e.addPfx k1 = k1 := by simp [DotEnv.addPfx, hp]
  have ha2 : e.addPfx k2 = k2 := by simp [DotEnv.addPfx, hp]
  by_cases h1 : k1 = ""
  · have h2 : k2 = "" := by
      rw [← toUpperStr_eq_empty_iff, ← h, h1]
      rfl
    simp [DotEnv.Get, h1, h2]
  · have h2 : k2 ≠ "" := by
      intro hh
      apply h1
      rw [← toUpperStr_eq_empty_iff, h, hh]
      rfl
    simp [DotEnv.Get, h1, h2, ha1, ha2, h]

/-- Witness for C4 amended at a concrete input: with no prefix set,
`Get` on `foo` and on `FOO` agree. -/
theorem c4_amended_get_insensitive_witness :
    DotEnv.Get plainEnvReg stFooCached "foo" = DotEnv.Get plainEnvReg stFooCached "FOO" :=
  c4_amended_get_insensitive plainEnvReg stFooCached "foo" "FOO" rfl (by decide)

/-- State with a cache entry for `.env` but no file on disk. -/
def stCacheOnlyNoFile : St :=
  { env := [], cache := [(".env", [])], fs := [], unwritable := [] }

/-- The state `stCacheOnlyNoFile` after `Set` stores `x` under `K`. -/
def stCacheOnlyNoFileAfter : St :=
  { env := [], cache := [(".env", [("K", Value.vStr "x")])], fs := [], unwritable := [] }

/-- C5 counterexample: `Set` succeeds (the cache entry exists) and the
environment is empty, yet `Get` does NOT return the value just set,
because the registry's file is missing on disk: `Get` re-checks file
existence even though the value sits in the cache, so the round-trip is
not disk-free as claimed. -/
theorem c5_counterexample :
    DotEnv.Set plainEnvReg stCacheOnlyNoFile "K" (Value.vStr "x") =
      some stCacheOnlyNoFileAfter ∧
    lookupA stCacheOnlyNoFileAfter.env (toUpperStr (plainEnvReg.addPfx "K")) = none ∧
    (DotEnv.Get plainEnvReg stCacheOnlyNoFileAfter "K").1 ≠ Value.vStr "x" := by decide

/-- C5 amended: for every NON-EMPTY key, if `Set` succeeds (the cache
entry for the registry's file exists), the environment variable for the
transformed key is unset, and the registry's file exists on disk, then
`Get` returns exactly the value just set, served from the cache. -/
theorem c5_amended_roundtrip (e : DotEnv) (st st2 : St) (k : String) (v : Value)
    (hk : k ≠ "")
    (hset : DotEnv.Set e st k v = some st2)
    (he : lookupA st2.env (toUpperStr (e.addPfx k)) = none)
    (hf : checkFileExists st2.fs e.ConfigFile = true) :
    (DotEnv.Get e st2 k).1 = v := by
  unfold DotEnv.Set at hset
  cases hmc : lookupA st.cache e.ConfigFile with
  | none =>
      simp [hmc] at hset
  | some m =>
      simp only [hmc] at hset
      simp at hset
      subst hset
      simp at he hf
      have h1 := getFromFile_eval_hit
        { st with cache :=
            updateA st.cache e.ConfigFile (updateA m (toUpperStr (e.addPfx k)) v) }
        e.ConfigFile (toUpperStr (e.addPfx k)) e.Separator
        (updateA m (toUpperStr (e.addPfx k)) v) v
        (by simpa using hf)
        (by simpa using lookupA_updateA_self st.cache e.ConfigFile (updateA m (toUpperStr (e.addPfx k)) v))
        (lookupA_updateA_self m (toUpperStr (e.addPfx k)) v)
      simp [DotEnv.Get, hk, he, h1]

/-- State with an (empty) file on disk at `.env` and an empty cache
entry for it. -/
def stC5File : St :=
  { env := [], cache := [(".env", [])], fs := [(".env", FsEntry.file "")], unwritable := [] }

/-- The state `stC5File` after `Set` stores `x` under `K`. -/
def stC5FileAfter : St :=
  { env := [],
    cache := [(".env", [("K", Value.vStr "x")])],
    fs := [(".env", FsEntry.file "")],
    unwritable := [] }

/-- Witness for C5 amended at a concrete input. -/
theorem c5_amended_roundtrip_witness :
    (DotEnv.Get plainEnvReg stC5FileAfter "k").1 = Value.vStr "x" :=
  c5_amended_roundtrip plainEnvReg stC5File stC5FileAfter "k" (Value.vStr "x")
    (by decide) (by decide) (by decide) (by decide)

/-- State whose config file exists but cannot be read (spec §4.1 io
failure), with an empty environment and an empty cache. -/
def stUnreadable : St :=
  { env := [], cache := [], fs := [(".env", FsEntry.unreadableFile)], unwritable := [] }

/-- C10 counterexample: the key `k` is absent from the environment and
from the cache, and no nil value was ever stored via `Set` (the cache
is empty), yet `IsSet` returns false: the config file exists but its
read fails, `GetFromFile` returns a nil value with the read error,
`getConfigValueWithKey` passes that nil through, and `Get` returns it. -/
theorem c10_counterexample :
    lookupA stUnreadable.env (toUpperStr (plainEnvReg.addPfx "k")) = none ∧
    stUnreadable.cache = [] ∧
    (DotEnv.Get plainEnvReg stUnreadable "k").1 = Value.vNil ∧
    (DotEnv.IsSet plainEnvReg stUnreadable "k").1 = false := by decide

/-- C10 amended: `IsSet` returns true unless either the cache maps the
transformed key to an explicitly stored nil (only a programmatic `Set`
stores one - file parsing yields only strings), or the read-error path
is reachable: the registry's file exists but is unreadable while no
cache entry shields it, in which case `Get` can return the nil produced
at dotenv.go:401. In particular, for every key absent from the
environment, the cache, and a readable config file, `IsSet` returns
true. -/
theorem c10_amended_isset_true_unless_nil_or_read_failure (e : DotEnv) (st : St)
    (k : String)
    (h : cacheLookup2 st e.ConfigFile (toUpperStr (e.addPfx k)) ≠ some Value.vNil)
    (hr : ¬ readErrPath st e.ConfigFile) :
    (DotEnv.IsSet e st k).1 = true := by
  by_cases hv : (DotEnv.Get e st k).1 = Value.vNil
  · rcases get_value_vNil e st k hv with h2 | h2
    · exact absurd h2 h
    · exact absurd h2 hr
  · simp [DotEnv.IsSet, hv]

/-- Witness for C10 amended at a concrete input: the key `absent` is
missing from the environment, the cached mapping, and the (readable)
file, and `IsSet` reports true. -/
theorem c10_amended_witness :
    (DotEnv.IsSet plainEnvReg stFooCached "absent").1 = true :=
  c10_amended_isset_true_unless_nil_or_read_failure plainEnvReg stFooCached "absent"
    (by decide) (by decide)
